import Mathlib

/-!
# Verification of logboom (src/source/logboom.ts)

A shallow embedding of the logboom leveled-logging library and proofs of its
specified properties.  The embedding follows `src/source/logboom.ts`:

* `LoggerMachine` (abstract base): severity ranks via `getLevelNumber`,
  threshold triage via `reportMessage`, plain formatting via `formatMessage`
  and `formatError`.  The abstract sink methods `logMessage` /
  `logErrorMessage` are modelled by recording the strings passed to them in a
  `MachineState`.
* `ConsoleLogger`: chalk-colored formatting.  chalk's color functions wrap a
  string in ANSI SGR escape sequences (`ESC [ <code> m` to open,
  `ESC [ 39 m` to close the foreground color); we embed them as literal
  escape sequences inside the produced strings.
* `FileLogger`: extends the console logger; its sink methods first delegate to
  the console write and then append the ANSI-stripped text plus the configured
  line ending to the file.  Console writes and file writes are recorded in
  order as an `Event` trace.

`Date` timestamps are nondeterministic input; every formatting function takes
the current ISO time string `now` as an explicit argument.
-/

namespace Logboom

/-- The ASCII escape character, `"\u001b"`, which opens ANSI escape codes. -/
def esc : Char := Char.ofNat 27

/-- `LoggerMachine.levels` (logboom.ts line 30): the six severity labels in
declaration order, most severe first. -/
def levels : List String := ["error", "warn", "info", "verbose", "debug", "silly"]

/-- `LoggerMachine.getLongestValue` (lines 31-37): scan for the longest string,
starting from `""`, keeping the earlier string on ties. -/
def getLongestValue (arr : List String) : String :=
  arr.foldl (fun longest subject =>
    if subject.length > longest.length then subject else longest) ""

/-- Helper for `rpad`: append `n` spaces.  The source's while loop
(`while (subject.length < length) subject += " "`, lines 38-41) adds one space
per iteration, so it runs exactly `length - subject.length` times (0 when the
subject is already long enough); this fuel-counted recursion is that loop. -/
def rpadAux : Nat → String → String
  | 0, subject => subject
  | n + 1, subject => rpadAux n (subject ++ " ")

/-- `LoggerMachine.rpad` (lines 38-41): right-pad with spaces to `len`. -/
def rpad (subject : String) (len : Nat) : String :=
  rpadAux (len - subject.length) subject

/-- JavaScript `String.prototype.toLowerCase`, restricted to the basic-latin
letters that severity labels consist of. -/
def jsToLower (s : String) : String := ⟨s.data.map Char.toLower⟩

/-- JavaScript `String.prototype.toUpperCase`, restricted to basic latin. -/
def jsToUpper (s : String) : String := ⟨s.data.map Char.toUpper⟩

/-- JavaScript `Array.prototype.indexOf`, index accumulator version:
first index of `x`, or `-1` when absent. -/
def indexOfAux : List String → String → Nat → Int
  | [], _, _ => -1
  | a :: rest, x, i => if a = x then (i : Int) else indexOfAux rest x (i + 1)

/-- JavaScript `Array.prototype.indexOf`: first index of `x`, or `-1`. -/
def indexOf (arr : List String) (x : String) : Int := indexOfAux arr x 0

/-- `LoggerMachine.getLevelNumber` (lines 43-45):
`this.levels.indexOf(level.toLowerCase())`. -/
def getLevelNumber (level : String) : Int := indexOf levels (jsToLower level)

/-- Constructor options of the base class (line 17-19). -/
structure LoggerMachineOptions where
  level : String

/-- A JavaScript `Error` value as `error()` receives it: a message plus an
optional `stack` string (`stack?: string` in TypeScript). -/
structure JSError where
  message : String
  stack : Option String

/-- JavaScript string coercion of a possibly-`undefined` string, as performed
by `+` in `... + error.stack`: `undefined` prints as `"undefined"`. -/
def jsStr : Option String → String
  | some s => s
  | none => "undefined"

/-- `LoggerMachine.timestamp` (lines 54-56) applied to the current ISO time
string `now`: returns `"[<now>] "`. -/
def timestamp (now : String) : String := "[" ++ now ++ "] "

/-- `LoggerMachine.levelTag` (lines 58-60): upper-cased label in parentheses,
right-padded to `3 + length of the longest label`. -/
def levelTag (level : String) : String :=
  rpad ("(" ++ jsToUpper level ++ ") ") (3 + (getLongestValue levels).length)

/-- `LoggerMachine.formatError` (lines 62-64):
`timestamp() + levelTag("error") + error.stack`. -/
def formatError (now : String) (error : JSError) : String :=
  timestamp now ++ levelTag "error" ++ jsStr error.stack

/-- `LoggerMachine.formatMessage` (lines 66-68). -/
def formatMessage (now level message : String) : String :=
  timestamp now ++ levelTag level ++ message

/-- State of an abstract `LoggerMachine`: the configured threshold plus the
strings handed to the abstract sink methods `logMessage` (in `messages`) and
`logErrorMessage` (in `errors`), in call order. -/
structure MachineState where
  threshold : Int
  messages : List String
  errors : List String
deriving DecidableEq

/-- The constructor (lines 47-49): `this.threshold = this.getLevelNumber(level)`;
no sink call has happened yet. -/
def mkMachine (opts : LoggerMachineOptions) : MachineState :=
  { threshold := getLevelNumber opts.level, messages := [], errors := [] }

/-- `LoggerMachine.reportMessage` (lines 70-73): emit the formatted message
through `logMessage` iff the call's rank is at most the threshold. -/
def reportMessage (st : MachineState) (now level message : String) : MachineState :=
  if getLevelNumber level ≤ st.threshold then
    { st with messages := st.messages ++ [formatMessage now level message] }
  else st

/-- `LoggerMachine.error` (line 75): unconditionally format and hand to
`logErrorMessage`. -/
def MachineState.error (st : MachineState) (now : String) (err : JSError) : MachineState :=
  { st with errors := st.errors ++ [formatError now err] }

/-- `LoggerMachine.warn` (line 76). -/
def MachineState.warn (st : MachineState) (now m : String) : MachineState :=
  reportMessage st now "warn" m

/-- `LoggerMachine.info` (line 77). -/
def MachineState.info (st : MachineState) (now m : String) : MachineState :=
  reportMessage st now "info" m

/-- `LoggerMachine.verbose` (line 78). -/
def MachineState.verbose (st : MachineState) (now m : String) : MachineState :=
  reportMessage st now "verbose" m

/-- `LoggerMachine.debug` (line 79). -/
def MachineState.debug (st : MachineState) (now m : String) : MachineState :=
  reportMessage st now "debug" m

/-- `LoggerMachine.silly` (line 80). -/
def MachineState.silly (st : MachineState) (now m : String) : MachineState :=
  reportMessage st now "silly" m

/-! ## ANSI escape codes, chalk and strip-ansi -/

/-- An SGR escape sequence `ESC [ <n> m`, the open/close codes chalk emits. -/
def sgr (n : Nat) : String := ⟨[esc, '[']⟩ ++ Nat.repr n ++ "m"

/-- A chalk color function: wrap the string between its open SGR code and the
close code (39, default foreground) — e.g. `chalk.red s = "\u001b[31m" + s +
"\u001b[39m"`. -/
def chalkWrap (openCode closeCode : Nat) (s : String) : String :=
  sgr openCode ++ s ++ sgr closeCode

/-- `chalk.yellow`: SGR open code 33. -/
def chalkYellow (s : String) : String := chalkWrap 33 39 s

/-- `chalk.red`: SGR open code 31. -/
def chalkRed (s : String) : String := chalkWrap 31 39 s

/-- `ConsoleLogger.colors` (line 87): per-severity chalk color names. -/
def colors : List String := ["red", "magenta", "cyan", "green", "blue", "gray"]

/-- chalk's SGR open code for each color name used by `ConsoleLogger`
(`gray` is chalk's `blackBright`, code 90); other names are unused. -/
def colorCode : String → Nat
  | "red" => 31
  | "magenta" => 35
  | "cyan" => 36
  | "green" => 32
  | "blue" => 34
  | "gray" => 90
  | _ => 0

/-- The chalk function `(<any>chalk)[color]` for the color names in `colors`. -/
def chalkOf (color : String) (s : String) : String := chalkWrap (colorCode color) 39 s

/-- JavaScript array indexing `arr[i]` with a (possibly negative or
out-of-range) index: `undefined` becomes `none`. -/
def listGet? (arr : List String) (i : Int) : Option String :=
  if 0 ≤ i then arr.get? i.toNat else none

/-- `ConsoleLogger.formatError` (lines 89-91): yellow timestamp, red tag and
stack text. -/
def ConsoleLogger.formatError (now : String) (error : JSError) : String :=
  chalkYellow (timestamp now) ++ chalkRed (levelTag "error" ++ jsStr error.stack)

/-- `ConsoleLogger.formatMessage` (lines 93-97): yellow timestamp, tag and body
in the severity's color.  The color lookup `this.colors[this.getLevelNumber(level)]`
yields `undefined` for an unknown level, on which calling the chalk function
would throw: that failure is the `none` case. -/
def ConsoleLogger.formatMessage (now level message : String) : Option String :=
  (listGet? colors (getLevelNumber level)).map fun color =>
    chalkYellow (timestamp now) ++ chalkOf color (levelTag level ++ message)

/-- `true` for ANSI CSI parameter and intermediate bytes (0x20-0x3F): the
bytes that continue an escape sequence after `ESC [`. -/
def isCSIBody (c : Char) : Bool := 0x20 ≤ c.toNat && c.toNat ≤ 0x3F

/-- One pass of the strip-ansi package over the characters: remove every CSI
escape sequence `ESC [ <body bytes> <final byte>` (the class that covers all
sequences chalk emits) and keep everything else.  The `Bool` is true while
inside a sequence's body. -/
def stripAnsiGo : Bool → List Char → List Char
  | _, [] => []
  | true, c :: rest =>
    if isCSIBody c then stripAnsiGo true rest else stripAnsiGo false rest
  | false, c :: '[' :: rest2 =>
    if c = esc then stripAnsiGo true rest2
    else c :: stripAnsiGo false ('[' :: rest2)
  | false, c :: rest => c :: stripAnsiGo false rest

/-- `stripAnsi(s)`: `s` with all ANSI escape sequences removed. -/
def stripAnsi (s : String) : String := ⟨stripAnsiGo false s.data⟩

/-! ## FileLogger -/

/-- `FileLoggerOptions` (lines 108-111): level, logfile path, optional eol. -/
structure FileLoggerOptions where
  level : String
  logfile : String
  eol : Option String

/-- An observable write performed by a `FileLogger` call: a `console.log`
line, a `console.error` line, or a chunk passed to the file stream's
`write`. -/
inductive Event where
  | consoleLog : String → Event
  | consoleError : String → Event
  | fileWrite : String → Event
deriving DecidableEq

/-- State of a `FileLogger`: the configuration fields fixed by the
constructors (`threshold` from `LoggerMachine`, the `levels` table, the
`logfile` path the stream is bound to, `eol`) plus the ordered trace of
writes performed so far. -/
structure FileLoggerState where
  threshold : Int
  levelsTable : List String
  logfile : String
  eol : String
  trace : List Event
deriving DecidableEq

/-- `FileLogger`'s constructor (lines 121-126): `super(options)` sets the
threshold, `eol` defaults to `"\n"`, the stream opens on `logfile` in append
mode, and one `eol` is written immediately (`this.stream.write(eol)`). -/
def FileLogger.mkState (opts : FileLoggerOptions) : FileLoggerState :=
  { threshold := getLevelNumber opts.level
    levelsTable := levels
    logfile := opts.logfile
    eol := opts.eol.getD "\n"
    trace := [Event.fileWrite (opts.eol.getD "\n")] }

/-- `FileLogger.logErrorMessage` (lines 128-131): first the console write
(`super.logErrorMessage` = `console.error`), then
`this.stream.write(stripAnsi(errorMessage) + this.eol)`. -/
def FileLogger.logErrorMessage (st : FileLoggerState) (errorMessage : String) : FileLoggerState :=
  { st with trace := st.trace ++
      [Event.consoleError errorMessage,
       Event.fileWrite (stripAnsi errorMessage ++ st.eol)] }

/-- `FileLogger.logMessage` (lines 133-136): first the console write
(`super.logMessage` = `console.log`), then
`this.stream.write(stripAnsi(message) + this.eol)`. -/
def FileLogger.logMessage (st : FileLoggerState) (message : String) : FileLoggerState :=
  { st with trace := st.trace ++
      [Event.consoleLog message,
       Event.fileWrite (stripAnsi message ++ st.eol)] }

/-- `error()` on a `FileLogger` (inherited line 75, with the console
formatter of lines 89-91 and the file sink of lines 128-131). -/
def FileLogger.error (st : FileLoggerState) (now : String) (err : JSError) : FileLoggerState :=
  FileLogger.logErrorMessage st (ConsoleLogger.formatError now err)

/-- `reportMessage` as it runs on a `FileLogger` (inherited lines 70-73 with
the console formatter): `none` models the formatter throwing. -/
def FileLogger.reportMessage (st : FileLoggerState) (now level message : String) :
    Option FileLoggerState :=
  if getLevelNumber level ≤ st.threshold then
    (ConsoleLogger.formatMessage now level message).map (FileLogger.logMessage st)
  else some st

/-- `warn()` on a `FileLogger`. -/
def FileLogger.warn (st : FileLoggerState) (now m : String) : Option FileLoggerState :=
  FileLogger.reportMessage st now "warn" m

/-- `info()` on a `FileLogger`. -/
def FileLogger.info (st : FileLoggerState) (now m : String) : Option FileLoggerState :=
  FileLogger.reportMessage st now "info" m

/-- `verbose()` on a `FileLogger`. -/
def FileLogger.verbose (st : FileLoggerState) (now m : String) : Option FileLoggerState :=
  FileLogger.reportMessage st now "verbose" m

/-- `debug()` on a `FileLogger`. -/
def FileLogger.debug (st : FileLoggerState) (now m : String) : Option FileLoggerState :=
  FileLogger.reportMessage st now "debug" m

/-- `silly()` on a `FileLogger`. -/
def FileLogger.silly (st : FileLoggerState) (now m : String) : Option FileLoggerState :=
  FileLogger.reportMessage st now "silly" m

/-- The chunk a `fileWrite` event appended to the logfile. -/
def fileWritePayload : Event → Option String
  | Event.fileWrite s => some s
  | _ => none

/-- Everything a trace appended to the logfile, in order. -/
def fileContent (st : FileLoggerState) : String :=
  String.join (st.trace.filterMap fileWritePayload)

/-- The configuration fields of a `FileLoggerState`: threshold, severity
table, the path the stream handle is bound to, and the eol string. -/
def config (st : FileLoggerState) : Int × List String × String × String :=
  (st.threshold, st.levelsTable, st.logfile, st.eol)

/-! ## Helper lemmas -/

/-- `indexOf` returns `-1` on a missing element, whatever the accumulator. -/
lemma indexOfAux_of_not_mem : ∀ (arr : List String) (x : String) (i : Nat),
    x ∉ arr → indexOfAux arr x i = -1 := by
  intro arr
  induction arr with
  | nil => intro x i _; rfl
  | cons a rest ih =>
    intro x i h
    unfold indexOfAux
    rw [if_neg]
    · exact ih x (i + 1) fun hm => h (List.mem_cons_of_mem a hm)
    · intro he
      apply h
      rw [← he]
      exact List.mem_cons_self a rest

/-- A label whose lower-casing is not among the six levels gets rank `-1`. -/
lemma getLevelNumber_of_not_mem (lvl : String) (h : jsToLower lvl ∉ levels) :
    getLevelNumber lvl = -1 :=
  indexOfAux_of_not_mem levels (jsToLower lvl) 0 h

/-- `reportMessage` on a passing rank appends exactly the formatted line. -/
lemma reportMessage_of_le {st : MachineState} (now level m : String)
    (h : getLevelNumber level ≤ st.threshold) :
    reportMessage st now level m =
      { st with messages := st.messages ++ [formatMessage now level m] } := by
  unfold reportMessage
  rw [if_pos h]

/-- `reportMessage` on a filtered-out rank is the identity on the state. -/
lemma reportMessage_of_not_le {st : MachineState} (now level m : String)
    (h : ¬ getLevelNumber level ≤ st.threshold) :
    reportMessage st now level m = st := by
  unfold reportMessage
  rw [if_neg h]

/-- Stripping passes a non-escape head character through. -/
lemma stripAnsiGo_cons_ne_esc (c : Char) (h : c ≠ esc) (l : List Char) :
    stripAnsiGo false (c :: l) = c :: stripAnsiGo false l := by
  cases l with
  | nil => rfl
  | cons d rest =>
    by_cases hd : d = '['
    · subst hd
      simp only [stripAnsiGo]
      rw [if_neg h]
    · rw [stripAnsiGo.eq_def]
      split <;> simp_all

/-- Stripping passes an escape-free chunk through unchanged. -/
lemma stripAnsiGo_append_of_no_esc (l1 l2 : List Char) (h : ∀ c ∈ l1, c ≠ esc) :
    stripAnsiGo false (l1 ++ l2) = l1 ++ stripAnsiGo false l2 := by
  induction l1 with
  | nil => rfl
  | cons c l1 ih =>
    rw [List.cons_append,
      stripAnsiGo_cons_ne_esc c (h c (List.mem_cons_self c l1)) (l1 ++ l2),
      ih fun x hx => h x (List.mem_cons_of_mem c hx), List.cons_append]

/-- Inside a sequence, stripping consumes the body bytes and the final byte. -/
lemma stripAnsiGo_true_body (body : List Char) (final : Char) (l : List Char)
    (hb : ∀ c ∈ body, isCSIBody c = true) (hf : isCSIBody final = false) :
    stripAnsiGo true (body ++ final :: l) = stripAnsiGo false l := by
  induction body with
  | nil =>
    simp only [List.nil_append, stripAnsiGo, hf]
    simp
  | cons c body ih =>
    have hc := hb c (List.mem_cons_self c body)
    simp only [List.cons_append, stripAnsiGo, hc, if_true]
    exact ih fun x hx => hb x (List.mem_cons_of_mem c hx)

/-- Stripping removes a leading SGR sequence whose code prints as body
bytes (every decimal digit is one). -/
lemma stripAnsiGo_sgr (n : Nat) (l : List Char)
    (h : ∀ c ∈ (Nat.repr n).data, isCSIBody c = true) :
    stripAnsiGo false ((sgr n).data ++ l) = stripAnsiGo false l := by
  have hdata : (sgr n).data ++ l = esc :: '[' :: ((Nat.repr n).data ++ 'm' :: l) := by
    simp [sgr, String.data_append]
  rw [hdata]
  simp only [stripAnsiGo, if_pos rfl]
  exact stripAnsiGo_true_body _ 'm' l h (by decide)

/-- Stripping a chalk-wrapped escape-free string recovers the string. -/
lemma stripAnsiGo_chalkWrap (o c : Nat) (s : String) (l : List Char)
    (ho : ∀ ch ∈ (Nat.repr o).data, isCSIBody ch = true)
    (hc : ∀ ch ∈ (Nat.repr c).data, isCSIBody ch = true)
    (hs : ∀ ch ∈ s.data, ch ≠ esc) :
    stripAnsiGo false ((chalkWrap o c s).data ++ l) = s.data ++ stripAnsiGo false l := by
  have hdata : (chalkWrap o c s).data ++ l =
      (sgr o).data ++ (s.data ++ ((sgr c).data ++ l)) := by
    simp [chalkWrap, String.data_append]
  rw [hdata, stripAnsiGo_sgr o _ ho, stripAnsiGo_append_of_no_esc s.data _ hs,
    stripAnsiGo_sgr c l hc]

/-- The console formatter succeeds on a level whose color lookup succeeds,
and stripping the ANSI codes from its colored output recovers exactly the
plain formatted line, provided the timestamp and message carry no escape
character of their own. -/
lemma stripAnsi_console_format (now lv m colorName : String)
    (hcolor : listGet? colors (getLevelNumber lv) = some colorName)
    (hcode : ∀ ch ∈ (Nat.repr (colorCode colorName)).data, isCSIBody ch = true)
    (htag : ∀ ch ∈ (levelTag lv).data, ch ≠ esc)
    (hnow : ∀ ch ∈ now.data, ch ≠ esc)
    (hm : ∀ ch ∈ m.data, ch ≠ esc) :
    ConsoleLogger.formatMessage now lv m =
      some (chalkYellow (timestamp now) ++ chalkOf colorName (levelTag lv ++ m)) ∧
    stripAnsi (chalkYellow (timestamp now) ++ chalkOf colorName (levelTag lv ++ m)) =
      formatMessage now lv m := by
  constructor
  · unfold ConsoleLogger.formatMessage
    rw [hcolor]
    rfl
  · have hts : ∀ ch ∈ (timestamp now).data, ch ≠ esc := by
      intro ch hch
      simp only [timestamp, String.data_append] at hch
      rcases List.mem_append.mp hch with h1 | h1
      · rcases List.mem_append.mp h1 with h2 | h2
        · simp only [List.mem_singleton.mp (by simpa using h2)]
          decide
        · exact hnow ch h2
      · rcases (by simpa using h1 : ch = ']' ∨ ch = ' ') with h2 | h2 <;>
          (subst h2; decide)
    have htm : ∀ ch ∈ (levelTag lv ++ m).data, ch ≠ esc := by
      intro ch hch
      rcases List.mem_append.mp (by simpa [String.data_append] using hch) with h1 | h1
      · exact htag ch h1
      · exact hm ch h1
    show String.mk (stripAnsiGo false _) = _
    rw [String.data_append]
    unfold chalkYellow chalkOf
    rw [stripAnsiGo_chalkWrap 33 39 (timestamp now) _ (by decide) (by decide) hts]
    have : (chalkWrap (colorCode colorName) 39 (levelTag lv ++ m)).data =
        (chalkWrap (colorCode colorName) 39 (levelTag lv ++ m)).data ++ [] := by simp
    rw [this, stripAnsiGo_chalkWrap (colorCode colorName) 39 (levelTag lv ++ m) [] hcode
      (by decide) htm]
    simp only [stripAnsiGo, List.append_nil, String.data_append]
    show String.mk ((timestamp now).data ++ ((levelTag lv).data ++ m.data)) = _
    rw [← List.append_assoc]
    rfl

/-- Triage on a `FileLogger` never touches the configuration, whether the
entry is filtered out or formatted and written. -/
lemma fileReport_map_config (st : FileLoggerState) (now level m : String)
    (h : ∃ c, listGet? colors (getLevelNumber level) = some c) :
    (FileLogger.reportMessage st now level m).map config = some (config st) := by
  obtain ⟨c, hc⟩ := h
  unfold FileLogger.reportMessage ConsoleLogger.formatMessage
  rw [hc]
  split <;> rfl

/-! ## Claim theorems -/

/-- C1: for every logger with configured threshold `t` and every leveled call
among warn/info/verbose/debug/silly with text `m`: if `rank(severity) ≤ t`
the call hands exactly one formatted line (timestamp + level tag + `m`) to the
sink's message writer, and if `rank(severity) > t` the call emits nothing and
leaves the state untouched (and, being a total function, raises nothing). -/
theorem c1_threshold_triage : ∀ (st : MachineState) (now m lv : String),
    lv ∈ ["warn", "info", "verbose", "debug", "silly"] →
    (getLevelNumber lv ≤ st.threshold →
      reportMessage st now lv m =
        { st with messages := st.messages ++ [timestamp now ++ levelTag lv ++ m] }) ∧
    (st.threshold < getLevelNumber lv → reportMessage st now lv m = st) := by
  intro st now m lv _
  constructor
  · intro h
    exact reportMessage_of_le now lv m h
  · intro h
    exact reportMessage_of_not_le now lv m (not_le.mpr h)

/-- Witness for C1 at threshold 1 (`warn`): `warn` emits one line, `info` is a
no-op. -/
theorem c1_witness :
    reportMessage ⟨1, [], []⟩ "T" "warn" "x" =
      ⟨1, [timestamp "T" ++ levelTag "warn" ++ "x"], []⟩ ∧
    reportMessage ⟨1, [], []⟩ "T" "info" "x" = ⟨1, [], []⟩ :=
  ⟨(c1_threshold_triage ⟨1, [], []⟩ "T" "x" "warn" (by decide)).1 (by decide),
   (c1_threshold_triage ⟨1, [], []⟩ "T" "x" "info" (by decide)).2 (by decide)⟩

/-- C2: for every logger state — hence every configured threshold, including
the most restrictive `rank(error) = 0` and even the out-of-range `-1` — a call
to `error(err)` hands exactly one formatted line to the error sink and changes
nothing else: `error` never passes through threshold filtering. -/
theorem c2_error_bypasses_threshold : ∀ (st : MachineState) (now : String) (err : JSError),
    (MachineState.error st now err).errors =
      st.errors ++ [timestamp now ++ levelTag "error" ++ jsStr err.stack] ∧
    (MachineState.error st now err).messages = st.messages ∧
    (MachineState.error st now err).threshold = st.threshold := by
  intro st now err
  exact ⟨rfl, rfl, rfl⟩

/-- C3: the code's behavior at the failing input — constructing a logger with
the unrecognized severity label `"wat"` does not raise a configuration error;
it succeeds and silently stores the out-of-range threshold `-1`
(`Array.prototype.indexOf` misses). -/
theorem c3_unknown_level_construction :
    (mkMachine ⟨"wat"⟩).threshold = -1 ∧ ¬ 0 ≤ (mkMachine ⟨"wat"⟩).threshold := by
  decide

/-- C5 counterexample: `formatError` does not fall back to the error's message
text when the stack is absent — for an error with message `"boom"` and no
stack, the formatted line is not timestamp + tag + `"boom"` (it carries the
JavaScript coercion `"undefined"` instead). -/
theorem c5_counterexample :
    formatError "2020-01-01T00:00:00.000Z" ⟨"boom", none⟩ ≠
      timestamp "2020-01-01T00:00:00.000Z" ++ levelTag "error" ++ "boom" := by
  decide

/-- C5 amended: formatting never throws (it is a total function), and when the
input to `error()` has no stack trace text the formatted entry ends in the
literal text `"undefined"` (JavaScript's string coercion of the missing
stack), not in the error's message text; with a stack present, the stack text
is used. -/
theorem c5_amended_undefined_fallback : ∀ (now : String) (err : JSError),
    (err.stack = none →
      formatError now err = timestamp now ++ levelTag "error" ++ "undefined") ∧
    (∀ s, err.stack = some s →
      formatError now err = timestamp now ++ levelTag "error" ++ s) := by
  intro now err
  constructor
  · intro h
    simp [formatError, jsStr, h]
  · intro s h
    simp [formatError, jsStr, h]

/-- Witness for C5's amended claim at a stackless error. -/
theorem c5_witness :
    formatError "T" ⟨"boom", none⟩ = timestamp "T" ++ levelTag "error" ++ "undefined" :=
  (c5_amended_undefined_fallback "T" ⟨"boom", none⟩).1 rfl

/-- C6: every entry accepted by the File Sink first performs the console
write and then appends to the file the ANSI-stripped text followed by the
configured line ending — text first, line ending after — and the line ending
defaults to `"\n"` when the option is omitted. -/
theorem c6_file_write_order : ∀ (st : FileLoggerState) (s : String) (opts : FileLoggerOptions),
    (FileLogger.logMessage st s).trace =
      st.trace ++ [Event.consoleLog s, Event.fileWrite (stripAnsi s ++ st.eol)] ∧
    (FileLogger.logErrorMessage st s).trace =
      st.trace ++ [Event.consoleError s, Event.fileWrite (stripAnsi s ++ st.eol)] ∧
    (FileLogger.mkState { opts with eol := none }).eol = "\n" := by
  intro st s opts
  exact ⟨rfl, rfl, rfl⟩

/-- C7: for each of the six severity labels, `levelTag` is the upper-cased
label in parentheses (with a trailing space) right-padded with spaces to the
common width `3 + 7 = 10`, where 7 is the length of the longest label
(`"verbose"`); hence all six tags have equal printed width. -/
theorem c7_levelTag_width :
    (getLongestValue levels).length = 7 ∧
    ∀ lv ∈ levels,
      (levelTag lv).length = 3 + (getLongestValue levels).length ∧
      ∃ k, levelTag lv = "(" ++ jsToUpper lv ++ ") " ++ ⟨List.replicate k ' '⟩ := by
  refine ⟨by decide, ?_⟩
  intro lv hmem
  simp only [levels, List.mem_cons, List.not_mem_nil, or_false] at hmem
  rcases hmem with h | h | h | h | h | h <;> subst h
  · exact ⟨by decide, 2, by decide⟩
  · exact ⟨by decide, 3, by decide⟩
  · exact ⟨by decide, 3, by decide⟩
  · exact ⟨by decide, 0, by decide⟩
  · exact ⟨by decide, 2, by decide⟩
  · exact ⟨by decide, 2, by decide⟩

/-- Witness for C7 at the label `"error"`. -/
theorem c7_witness :
    (levelTag "error").length = 3 + (getLongestValue levels).length ∧
    ∃ k, levelTag "error" = "(" ++ jsToUpper "error" ++ ") " ++ ⟨List.replicate k ' '⟩ :=
  c7_levelTag_width.2 "error" (by decide)

/-- C8: the severity-rank lookup assigns contiguous ranks in declaration order
(error 0, warn 1, info 2, verbose 3, debug 4, silly 5) and is
case-insensitive: any string whose lower-casing equals one of the six labels
gets that label's rank. -/
theorem c8_rank_lookup :
    (getLevelNumber "error" = 0 ∧ getLevelNumber "warn" = 1 ∧
     getLevelNumber "info" = 2 ∧ getLevelNumber "verbose" = 3 ∧
     getLevelNumber "debug" = 4 ∧ getLevelNumber "silly" = 5) ∧
    ∀ s lv, lv ∈ levels → jsToLower s = lv → getLevelNumber s = getLevelNumber lv := by
  refine ⟨by decide, ?_⟩
  intro s lv hmem hlow
  have hfix : jsToLower lv = lv := by
    simp only [levels, List.mem_cons, List.not_mem_nil, or_false] at hmem
    rcases hmem with h | h | h | h | h | h <;> subst h <;> decide
  unfold getLevelNumber
  rw [hlow, hfix]

/-- Witness for C8: the upper-cased string `"WARN"` gets `warn`'s rank. -/
theorem c8_witness : getLevelNumber "WARN" = getLevelNumber "warn" :=
  c8_rank_lookup.2 "WARN" "warn" (by decide) (by decide)

/-- C9: constructing a logger with an unrecognized severity label succeeds
with threshold `-1`, after which every leveled call (warn, info, verbose,
debug, silly) returns the state unchanged — no output, and no exception since
the functions are total — while `error()` still emits its one line
unconditionally. -/
theorem c9_unknown_level_behavior : ∀ lvl : String, jsToLower lvl ∉ levels →
    (mkMachine ⟨lvl⟩).threshold = -1 ∧
    (∀ now m,
      MachineState.warn (mkMachine ⟨lvl⟩) now m = mkMachine ⟨lvl⟩ ∧
      MachineState.info (mkMachine ⟨lvl⟩) now m = mkMachine ⟨lvl⟩ ∧
      MachineState.verbose (mkMachine ⟨lvl⟩) now m = mkMachine ⟨lvl⟩ ∧
      MachineState.debug (mkMachine ⟨lvl⟩) now m = mkMachine ⟨lvl⟩ ∧
      MachineState.silly (mkMachine ⟨lvl⟩) now m = mkMachine ⟨lvl⟩) ∧
    (∀ now err, (MachineState.error (mkMachine ⟨lvl⟩) now err).errors = [formatError now err]) := by
  intro lvl h
  have ht : (mkMachine ⟨lvl⟩).threshold = -1 := getLevelNumber_of_not_mem lvl h
  refine ⟨ht, ?_, fun now err => rfl⟩
  intro now m
  refine ⟨?_, ?_, ?_, ?_, ?_⟩ <;>
    refine reportMessage_of_not_le now _ m ?_ <;> rw [ht] <;> decide

/-- Witness for C9 at the unrecognized label `"wat"`. -/
theorem c9_witness :
    (mkMachine ⟨"wat"⟩).threshold = -1 ∧
    MachineState.warn (mkMachine ⟨"wat"⟩) "T" "x" = mkMachine ⟨"wat"⟩ ∧
    (MachineState.error (mkMachine ⟨"wat"⟩) "T" ⟨"b", some "s"⟩).errors =
      [formatError "T" ⟨"b", some "s"⟩] :=
  have h := c9_unknown_level_behavior "wat" (by decide)
  ⟨h.1, (h.2.1 "T" "x").1, h.2.2 "T" ⟨"b", some "s"⟩⟩

/-- C4: round-trip — for every accepted leveled call on a File Sink, the
console formatter produces a colored line `fmt`, the sink's console write
emits `fmt`, the file receives exactly `stripAnsi fmt` followed by the line
ending, and stripping the ANSI escape codes from `fmt` yields exactly the
plain formatted text (timestamp + tag + message): so the persisted line,
modulo the line ending, is the ANSI-stripped console output. -/
theorem c4_roundtrip : ∀ (st : FileLoggerState) (now m lv : String),
    lv ∈ ["warn", "info", "verbose", "debug", "silly"] →
    getLevelNumber lv ≤ st.threshold →
    (∀ ch ∈ now.data, ch ≠ esc) → (∀ ch ∈ m.data, ch ≠ esc) →
    ∃ fmt, ConsoleLogger.formatMessage now lv m = some fmt ∧
      FileLogger.reportMessage st now lv m = some (FileLogger.logMessage st fmt) ∧
      (FileLogger.logMessage st fmt).trace =
        st.trace ++ [Event.consoleLog fmt, Event.fileWrite (stripAnsi fmt ++ st.eol)] ∧
      stripAnsi fmt = formatMessage now lv m := by
  intro st now m lv hmem hrank hnow hm
  simp only [List.mem_cons, List.not_mem_nil, or_false] at hmem
  have key : ∃ colorName, listGet? colors (getLevelNumber lv) = some colorName ∧
      (∀ ch ∈ (Nat.repr (colorCode colorName)).data, isCSIBody ch = true) ∧
      (∀ ch ∈ (levelTag lv).data, ch ≠ esc) := by
    rcases hmem with h | h | h | h | h <;> subst h
    · exact ⟨"magenta", by decide, by decide, by decide⟩
    · exact ⟨"cyan", by decide, by decide, by decide⟩
    · exact ⟨"green", by decide, by decide, by decide⟩
    · exact ⟨"blue", by decide, by decide, by decide⟩
    · exact ⟨"gray", by decide, by decide, by decide⟩
  obtain ⟨colorName, hcolor, hcode, htag⟩ := key
  obtain ⟨hfmt, hstrip⟩ := stripAnsi_console_format now lv m colorName hcolor hcode htag hnow hm
  refine ⟨_, hfmt, ?_, rfl, hstrip⟩
  unfold FileLogger.reportMessage
  rw [if_pos hrank, hfmt]
  rfl

/-- Witness for C4: a `warn` call on a File Sink at threshold `silly`. -/
theorem c4_witness :
    ∃ fmt, ConsoleLogger.formatMessage "T" "warn" "x" = some fmt ∧
      FileLogger.reportMessage (FileLogger.mkState ⟨"silly", "out.log", none⟩) "T" "warn" "x" =
        some (FileLogger.logMessage (FileLogger.mkState ⟨"silly", "out.log", none⟩) fmt) ∧
      (FileLogger.logMessage (FileLogger.mkState ⟨"silly", "out.log", none⟩) fmt).trace =
        (FileLogger.mkState ⟨"silly", "out.log", none⟩).trace ++
          [Event.consoleLog fmt,
           Event.fileWrite (stripAnsi fmt ++ (FileLogger.mkState ⟨"silly", "out.log", none⟩).eol)] ∧
      stripAnsi fmt = formatMessage "T" "warn" "x" :=
  c4_roundtrip (FileLogger.mkState ⟨"silly", "out.log", none⟩) "T" "x" "warn"
    (by decide) (by decide) (by decide) (by decide)

/-- C10: every public logging call on a File Sink — `error` and the five
leveled methods — leaves the configuration untouched: the threshold, the
severity label table, the logfile path the stream handle is bound to, and
the eol string are all exactly as constructed. -/
theorem c10_config_frame : ∀ (st : FileLoggerState) (now m : String) (err : JSError),
    config (FileLogger.error st now err) = config st ∧
    (FileLogger.warn st now m).map config = some (config st) ∧
    (FileLogger.info st now m).map config = some (config st) ∧
    (FileLogger.verbose st now m).map config = some (config st) ∧
    (FileLogger.debug st now m).map config = some (config st) ∧
    (FileLogger.silly st now m).map config = some (config st) := by
  intro st now m err
  exact ⟨rfl,
    fileReport_map_config st now "warn" m ⟨"magenta", by decide⟩,
    fileReport_map_config st now "info" m ⟨"cyan", by decide⟩,
    fileReport_map_config st now "verbose" m ⟨"green", by decide⟩,
    fileReport_map_config st now "debug" m ⟨"blue", by decide⟩,
    fileReport_map_config st now "silly" m ⟨"gray", by decide⟩⟩

end Logboom
